import Mathlib

/-!
Formal model of the 3D scene interaction engine of the Portfolio repository
(src/components/SceneView.tsx).  The definitions below are shallow embeddings of
the functions and event handlers of that file: pixel coordinates, scroll offsets
and grid positions are modelled as rationals, the orbit polar angle as a real
number (its clamp involves pi), and the mutable refs of the component as fields
of explicit state records.  External capabilities (the three.js raycaster and
the STL loader) are abstracted as parameters, as the specification treats them
as collaborators.
-/

namespace Portfolio

/-- Fixed visual size of a model, MODEL_SIZE (SceneView.tsx line 96). -/
def MODEL_SIZE : ℚ := 350

/-- Fixed grid pitch, SPACING (SceneView.tsx line 97). -/
def SPACING : ℚ := 650

/-! ### Fuzzy search filter (createFuzzyRegex, lines 39-44)

`createFuzzyRegex` inserts an escape backslash in front of every regex
metacharacter of the search string and then joins the characters of the
escaped string with a wildcard.  Because the join operates on the single
characters of the escaped string, every inserted backslash is separated from
the character it was meant to escape: the construction below (escapeRegex,
joinWildcard, fuzzyPattern) builds the exact pattern string the code hands to
the RegExp constructor, and for a query containing a metacharacter that
pattern is not the intended literal sequence — the query consisting of one
dot yields the pattern backslash dot star dot, which matches any nonempty
name, and the query consisting of one opening parenthesis yields an invalid
pattern on which the RegExp constructor throws.

For a search string free of metacharacters the escape step is the identity
and the compiled pattern is q1.*q2...qk with every qi a literal character,
compiled with the i flag and tested unanchored.  The matcher below
(matchTail, fuzzySearch, matchesFuzzy) models exactly this fragment: the
ECMAScript wildcard dot matches every character except a line terminator, and
case folding is modelled with Char.toLower, which agrees with the ECMAScript
i flag on the ASCII range.  performLayout's filter is modelled by
matchesFuzzy throughout the file; for terms containing metacharacters the
true filter semantics (a non-literal pattern, or a constructor exception that
aborts performLayout) is not representable in this shallow embedding, and no
claim proved below depends on the matcher's extension at such terms. -/

/-- Regex metacharacters: the character class escaped by createFuzzyRegex
(line 41) — dot, star, plus, question mark, caret, dollar, the curly
brackets, the parentheses, pipe, the square brackets and backslash. -/
def isRegexSpecial (c : Char) : Bool :=
  c == '.' || c == '*' || c == '+' || c == '?' || c == '^' || c == '$' ||
  c == '\x7b' || c == '\x7d' || c == '(' || c == ')' || c == '|' ||
  c == '[' || c == ']' || c == '\\'

/-- The escape step of createFuzzyRegex (line 41): a backslash is inserted in
front of every regex metacharacter.  The subsequent split by single characters
detaches this backslash again; see joinWildcard. -/
def escapeRegex : List Char → List Char
  | [] => []
  | c :: cs =>
      if isRegexSpecial c then '\\' :: c :: escapeRegex cs
      else c :: escapeRegex cs

/-- The join step of createFuzzyRegex (line 42): the single characters of the
escaped string are interleaved with dot star.  An escape backslash is thereby
followed by the joined dot, not by the character it was inserted for. -/
def joinWildcard : List Char → List Char
  | [] => []
  | [c] => [c]
  | c :: cs => c :: '.' :: '*' :: joinWildcard cs

/-- The exact pattern string built by createFuzzyRegex for a search term. -/
def fuzzyPattern (term : String) : List Char :=
  joinWildcard (escapeRegex term.data)

/-- Case-insensitive comparison of one query character with one name character,
as performed by the i flag of the compiled regex. -/
def ciEq (a b : Char) : Bool := a.toLower == b.toLower

/-- Line terminators: the characters the ECMAScript wildcard dot does not match
when the s flag is absent (as in createFuzzyRegex). -/
def isLineTerm (c : Char) : Bool :=
  c == '\n' || c == '\r' || c == ' ' || c == ' '

/-- Matching of the regex fragment .*q1.*q2...qk against a suffix of the name,
for a query free of metacharacters (each qi a literal): each name character is
either consumed by the leading wildcard (possible only when it is not a line
terminator) or matched against the next query literal. -/
def matchTail (qs s : List Char) : Bool :=
  match s, qs with
  | _, [] => true
  | [], _ :: _ => false
  | c :: cs, q :: qs1 => (ciEq q c && matchTail qs1 cs) || (!isLineTerm c && matchTail (q :: qs1) cs)

/-- Unanchored search of the pattern q1.*q2...qk in the name, as RegExp.test
does: some start position matches the first literal and the remaining pattern
matches there. -/
def fuzzySearch (qs s : List Char) : Bool :=
  match s, qs with
  | _, [] => true
  | [], _ :: _ => false
  | c :: cs, q :: qs1 => (ciEq q c && matchTail qs1 cs) || fuzzySearch (q :: qs1) cs

/-- Filter test of performLayout (lines 151-158): an empty search term matches
every name (createFuzzyRegex returns null and the test is skipped), otherwise
the compiled fuzzy regex is tested against the file name.  Faithful to the
code for terms free of regex metacharacters; see the section comment above
for the behaviour of the real construction on other terms. -/
def matchesFuzzy (term name : String) : Bool :=
  if term.isEmpty then true else fuzzySearch term.data name.data

/-- Predicate described by the specification for the filter: every query
character appears in the name in order, case-insensitively, with arbitrary
characters in between.  Used to compare the code's matcher against the
specified one. -/
def isSubseqCI (qs s : List Char) : Bool :=
  match s, qs with
  | _, [] => true
  | [], _ :: _ => false
  | c :: cs, q :: qs1 => (ciEq q c && isSubseqCI qs1 cs) || isSubseqCI (q :: qs1) cs

/-- Filter behaviour claimed by the specification: empty term matches all,
otherwise a case-insensitive ordered-subsequence test. -/
def subseqFilter (term name : String) : Bool :=
  if term.isEmpty then true else isSubseqCI term.data name.data

/-! ### Scene objects (ModelMesh with its userData, types.ts and loadModel) -/

/-- One loaded mesh together with the mutable state the scene keeps for it:
the stable load index (userData.index), the display name (userData.fileName),
the filter flag (userData.matchesSearch), the mesh position and the cached
originalPosition, the bounding-sphere data from boundingSpheresRef, and the
per-frame visibility/opacity state. -/
structure Model where
  index : Nat
  fileName : String
  matchesSearch : Bool
  position : ℚ × ℚ × ℚ
  originalPosition : Option (ℚ × ℚ × ℚ)
  sphereCenter : ℚ × ℚ × ℚ
  sphereRadius : ℚ
  visible : Bool
  opacity : ℚ
deriving Repr, DecidableEq

/-- State of a model right after a successful load (loadModel lines 280-326):
matchesSearch initialised to true (line 297), bounding sphere of radius
MODEL_SIZE times 0.8 at the mesh position (line 319). -/
def mkModel (index : Nat) (fileName : String) : Model :=
  { index := index, fileName := fileName, matchesSearch := true,
    position := (0, 0, 0), originalPosition := none,
    sphereCenter := (0, 0, 0), sphereRadius := MODEL_SIZE * (4 / 5),
    visible := true, opacity := 1 }

/-! ### Grid layout (performLayout, lines 144-192) -/

/-- Grid cell for the vi-th visible model (lines 161-169): row-major position
with row = floor(vi / cols), col = vi mod cols, x starting at minus half the
grid width, y descending from the vertical origin, z = 0. -/
def gridPoint (cols : Nat) (gridYOffset : ℚ) (vi : Nat) : ℚ × ℚ × ℚ :=
  (-(((cols : ℚ) - 1) * SPACING) / 2 + ((vi % cols : Nat) : ℚ) * SPACING,
   gridYOffset - ((vi / cols : Nat) : ℚ) * SPACING,
   0)

/-- Effect of performLayout on one matching model (lines 160-184): the filter
flag is set, position and originalPosition receive the grid cell, the cached
bounding-sphere center follows the position, and the model is made visible. -/
def placeModel (cols : Nat) (gridYOffset : ℚ) (vi : Nat) (m : Model) : Model :=
  { m with matchesSearch := true,
           originalPosition := some (gridPoint cols gridYOffset vi),
           position := gridPoint cols gridYOffset vi,
           sphereCenter := gridPoint cols gridYOffset vi,
           visible := true }

/-- Effect of performLayout on a non-matching model (lines 185-187): the filter
flag is cleared and the model is hidden; its position is not touched. -/
def hideModel (m : Model) : Model :=
  { m with matchesSearch := false, visible := false }

/-- Body of the forEach of performLayout (lines 152-188), threading the
visibleIndex counter through the list: a matching model receives the next grid
slot and the counter advances, a non-matching model is hidden. -/
def layoutGo (cols : Nat) (gridYOffset : ℚ) (term : String) : Nat → List Model → List Model
  | _, [] => []
  | vi, m :: rest =>
      if matchesFuzzy term m.fileName then
        placeModel cols gridYOffset vi m :: layoutGo cols gridYOffset term (vi + 1) rest
      else
        hideModel m :: layoutGo cols gridYOffset term vi rest

/-- Ascending stable sort by load index (performLayout line 149; JavaScript
Array.prototype.sort with comparator a.userData.index - b.userData.index is a
stable ascending sort). -/
def sortByIdentity (ms : List Model) : List Model :=
  ms.insertionSort (fun a b => a.index ≤ b.index)

/-- Number of models matching the filter — the final value of visibleIndex. -/
def countMatches (term : String) (ms : List Model) : Nat :=
  ms.countP (fun m => matchesFuzzy term m.fileName)

/-- performLayout (lines 144-192): sort by load index, then assign grid slots
to the matching models in order. -/
def layoutModels (cols : Nat) (gridYOffset : ℚ) (term : String) (ms : List Model) : List Model :=
  layoutGo cols gridYOffset term 0 (sortByIdentity ms)

/-- Visible row count written at the end of performLayout (line 191):
the ceiling of visibleIndex / cols, as a natural number. -/
def visibleRowsAfter (cols : Nat) (term : String) (ms : List Model) : Nat :=
  (countMatches term ms + cols - 1) / cols

/-! ### Scroll clamping (handleWheel lines 450-461, handleTouchMove lines 427-439) -/

/-- Upper scroll bound: max(0, contentHeight - gridYOffset) with contentHeight
equal to the visible row count times the grid pitch (lines 431-432, 455-457). -/
def maxScroll (visibleRows : Nat) (gridYOffset : ℚ) : ℚ :=
  max 0 ((visibleRows : ℚ) * SPACING - gridYOffset)

/-- Clamped scroll update shared by the wheel and touch handlers
(lines 434-435 and 459-460). -/
def scrollStep (visibleRows : Nat) (gridYOffset off delta : ℚ) : ℚ :=
  max 0 (min (off + delta) (maxScroll visibleRows gridYOffset))

/-- One scroll input, tagged with the device it came from. -/
inductive ScrollInput where
  | wheel (deltaY : ℚ)
  | touch (deltaY : ℚ)
deriving Repr, DecidableEq

/-- Device-specific scroll delta: wheel input is scaled by 0.8 (line 454),
touch movement is negated and scaled by 4.0 (lines 428-429). -/
def scrollDelta : ScrollInput → ℚ
  | .wheel d => d * (4 / 5)
  | .touch d => -d * 4

/-- Accumulated scroll offset after a sequence of scroll inputs, each clamped
as in the handlers. -/
def runScroll (visibleRows : Nat) (gridYOffset off : ℚ) (ins : List ScrollInput) : ℚ :=
  ins.foldl (fun o i => scrollStep visibleRows gridYOffset o (scrollDelta i)) off

/-! ### Orbit polar angle (handleMouseMove lines 366-374, handleTouchMove lines 422-426) -/

/-- Clamp applied to the polar angle after every drag update
(lines 371 and 426): Math.max(0.1, Math.min(Math.PI - 0.1, phi)). -/
noncomputable def phiClamp (x : ℝ) : ℝ := max 0.1 (min (Real.pi - 0.1) x)

/-- One orbit drag step on the polar angle: the vertical pixel delta scaled by
the 0.005 sensitivity is subtracted and the result clamped (lines 367-371 for
mouse, 423-426 for touch; both use the same formula). -/
noncomputable def phiStep (phi dy : ℝ) : ℝ := phiClamp (phi - dy * 0.005)

/-- Polar angle after a sequence of vertical drag deltas. -/
noncomputable def runPhi (phi : ℝ) (ds : List ℝ) : ℝ := ds.foldl phiStep phi

/-! ### Hit-testing (handleSingleClick lines 463-478, hover pass lines 550-561) -/

/-- Bounding sphere as stored in boundingSpheresRef (lines 63 and 319). -/
structure Sphere where
  center : ℚ × ℚ × ℚ
  radius : ℚ
deriving Repr, DecidableEq

/-- One entry of boundingSpheresRef: a sphere paired with its model. -/
structure SphereEntry where
  sphere : Sphere
  model : Model
deriving Repr, DecidableEq

/-- Hit query shared by handleSingleClick (lines 465-469) and the hover pass of
animate (lines 552-555): the first entry, in array order, whose model matches
the search and whose sphere the camera ray intersects.  The ray-sphere
intersection itself is computed by the external three.js raycaster and is
abstracted as the rayHits parameter. -/
def hitTest (rayHits : Sphere → Bool) (entries : List SphereEntry) : Option SphereEntry :=
  entries.find? (fun it => it.model.matchesSearch && rayHits it.sphere)

/-! ### Display scale at load time (loadModel lines 299-306) -/

/-- Largest bounding-box dimension, Math.max(size.x, size.y, size.z)
(line 304). -/
def maxDim (size : ℚ × ℚ × ℚ) : ℚ := max size.1 (max size.2.1 size.2.2)

/-- Display scale of a freshly loaded mesh (line 305): MODEL_SIZE divided by
the largest bounding-box dimension.  The source applies this division without
any guard on the divisor. -/
def displayScale (size : ℚ × ℚ × ℚ) : ℚ := MODEL_SIZE / maxDim size

/-! ### Interaction state machine

The mutable refs of SceneView that drive the gesture and zoom logic, and the
event handlers acting on them.  The orbit angles (orbitRef) are real-valued and
influence no branch of the handlers; they are modelled separately by phiStep
above.  The camera raycast of handleSingleClick is abstracted by the hitAt
parameter, which returns the load index of the first matching model whose
bounding sphere the ray through the given pointer position hits (the list
search itself is modelled concretely by hitTest). -/

/-- Interaction-relevant state of SceneView: the refs declared in
lines 62-102 plus the camera animation targets (lines 227-230). -/
structure UIState where
  isMouseDown : Bool
  isDragging : Bool
  dragStart : ℚ × ℚ
  mouse : ℚ × ℚ
  touchStart : ℚ × ℚ
  isZoomed : Bool
  zoomedModel : Option Nat
  scrollOffset : ℚ
  visibleRows : Nat
  gridYOffset : ℚ
  homeZ : ℚ
  cols : Nat
  searchTerm : String
  models : List Model
  targetCamPos : ℚ × ℚ × ℚ
  targetLookAt : ℚ × ℚ × ℚ
deriving Repr

/-- Events delivered to the handlers of SceneView: the pointer, touch and wheel
listeners (lines 480-486) plus the two external effects that clear the
selection (lines 729-740) and the search-term effect (lines 111-113, 195-198). -/
inductive UIEvent where
  | mouseDown (x y : ℚ)
  | mouseMove (x y : ℚ)
  | mouseUp (x y : ℚ)
  | touchStartEv (x y : ℚ)
  | touchMoveEv (x y : ℚ)
  | touchEndEv
  | wheelEv (deltaY : ℚ)
  | clearSelection
  | setSearch (term : String)

/-- Drag-threshold test used by both move handlers (lines 361 and 418):
either coordinate moved by more than 5 pixels relative to the reference. -/
def beyondThreshold (p q : ℚ × ℚ) : Bool :=
  (5 < |p.1 - q.1|) || (5 < |p.2 - q.2|)

/-- Effect of performLayout on the scene state (lines 144-192): models are
re-laid-out and the visible row count is updated; nothing else changes. -/
def performLayoutU (s : UIState) : UIState :=
  { s with models := layoutModels s.cols s.gridYOffset s.searchTerm s.models,
           visibleRows := visibleRowsAfter s.cols s.searchTerm s.models }

/-- zoomIn (lines 490-528): both zoom refs are set together and only the
selected model stays visible. -/
def zoomInU (m : Nat) (s : UIState) : UIState :=
  { s with isZoomed := true,
           zoomedModel := some m,
           models := s.models.map (fun mesh =>
             if mesh.index == m then { mesh with visible := true, opacity := 1 }
             else { mesh with visible := false, opacity := 0 }) }

/-- zoomOut (lines 530-540): both zoom refs are cleared together, the camera
targets return to the resting frame at the preserved scroll offset
(targetLookAt.set(0, -scrollOffset, 0)), and layout is re-applied. -/
def zoomOutU (s : UIState) : UIState :=
  performLayoutU
    { s with isZoomed := false,
             zoomedModel := none,
             targetCamPos := (0, 0, s.homeZ),
             targetLookAt := (0, -s.scrollOffset, 0) }

/-- handleSingleClick (lines 463-478): while zoomed any click zooms out;
otherwise the hit model, if any, is zoomed in. -/
def singleClick (hitAt : ℚ × ℚ → Option Nat) (s : UIState) : UIState :=
  if s.isZoomed then zoomOutU s
  else
    match hitAt s.mouse with
    | some m => zoomInU m s
    | none => s

/-- Event dispatch mirroring the handlers of SceneView: handleMouseDown
(lines 345-349), handleMouseMove (351-376), handleMouseUp (378-392),
handleTouchStart (394-406), handleTouchMove (408-439), handleTouchEnd
(441-448), handleWheel (450-461), the external selection-clearing effects
(729-740) and the search-term effect (111-113 with 195-198). -/
def stepUI (hitAt : ℚ × ℚ → Option Nat) (s : UIState) : UIEvent → UIState
  | .mouseDown x y =>
      { s with isMouseDown := true, isDragging := false, dragStart := (x, y) }
  | .mouseMove x y =>
      let s1 := { s with mouse := (x, y) }
      if s1.isMouseDown && s1.isZoomed && s1.zoomedModel.isSome then
        if !s1.isDragging && beyondThreshold (x, y) s1.dragStart then
          { s1 with isDragging := true, dragStart := (x, y) }
        else if s1.isDragging then
          { s1 with dragStart := (x, y) }
        else s1
      else s1
  | .mouseUp x y =>
      let wasDown := s.isMouseDown
      let s1 := { s with isMouseDown := false, mouse := (x, y) }
      let s2 := if !s1.isDragging && wasDown then singleClick hitAt s1 else s1
      { s2 with isDragging := false }
  | .touchStartEv x y =>
      { s with isMouseDown := true, isDragging := false,
               touchStart := (x, y), mouse := (x, y) }
  | .touchMoveEv x y =>
      let dY := y - s.touchStart.2
      let s1 := if !s.isDragging && beyondThreshold (x, y) s.touchStart then
                  { s with isDragging := true }
                else s
      let s2 := if s1.isZoomed && s1.zoomedModel.isSome then s1
                else { s1 with scrollOffset :=
                         scrollStep s1.visibleRows s1.gridYOffset s1.scrollOffset (-dY * 4) }
      { s2 with touchStart := (x, y) }
  | .touchEndEv =>
      let s1 := { s with isMouseDown := false }
      let s2 := if !s1.isDragging then singleClick hitAt s1 else s1
      { s2 with isDragging := false }
  | .wheelEv d =>
      if s.isZoomed then s
      else { s with scrollOffset :=
               scrollStep s.visibleRows s.gridYOffset s.scrollOffset (d * (4 / 5)) }
  | .clearSelection =>
      if s.isZoomed then zoomOutU s else s
  | .setSearch t =>
      performLayoutU { s with searchTerm := t }

/-- Run of the interaction machine over a list of events. -/
def runUI (hitAt : ℚ × ℚ → Option Nat) (s : UIState) (es : List UIEvent) : UIState :=
  es.foldl (stepUI hitAt) s

/-- Initial values of the interaction refs (lines 62-102) and of the camera
targets after updateViewParams ran once on the default viewport (lines 227-254
with homeZ 1200 and gridYOffset 200). -/
def initUI : UIState :=
  { isMouseDown := false, isDragging := false, dragStart := (0, 0), mouse := (0, 0),
    touchStart := (0, 0), isZoomed := false, zoomedModel := none, scrollOffset := 0,
    visibleRows := 0, gridYOffset := 200, homeZ := 1200, cols := 4, searchTerm := "",
    models := [], targetCamPos := (0, 0, 1200), targetLookAt := (0, 0, 0) }

/-- Events of a complete mouse gesture: press, a list of moves, release. -/
def mouseGesture (press : ℚ × ℚ) (moves : List (ℚ × ℚ)) (release : ℚ × ℚ) : List UIEvent :=
  UIEvent.mouseDown press.1 press.2 ::
    (moves.map (fun p => UIEvent.mouseMove p.1 p.2) ++ [UIEvent.mouseUp release.1 release.2])

/-- Events of a complete single-finger touch gesture. -/
def touchGesture (start : ℚ × ℚ) (moves : List (ℚ × ℚ)) : List UIEvent :=
  UIEvent.touchStartEv start.1 start.2 ::
    (moves.map (fun p => UIEvent.touchMoveEv p.1 p.2) ++ [UIEvent.touchEndEv])

/-- Cumulative mouse threshold crossing: some move is more than 5 pixels away
from the press point (the mouse handler keeps the press point as reference
until the flag is set). -/
def mouseCrossed (press : ℚ × ℚ) (moves : List (ℚ × ℚ)) : Bool :=
  moves.any (fun p => beyondThreshold p press)

/-- Incremental touch threshold crossing: some move is more than 5 pixels away
from the previous touch point (the touch handler updates its reference point on
every move). -/
def touchCrossed (prev : ℚ × ℚ) : List (ℚ × ℚ) → Bool
  | [] => false
  | p :: ps => beyondThreshold p prev || touchCrossed p ps

/-- Hit oracle returning no model, for concrete example runs. -/
def noHit : ℚ × ℚ → Option Nat := fun _ => none

/-- Hit oracle whose camera ray always meets model 0, for concrete example
runs. -/
def alwaysHit0 : ℚ × ℚ → Option Nat := fun _ => some 0

/-- Concrete orbiting state for example runs: model 0 selected with a nonzero
accumulated scroll offset. -/
def sampleZoomed : UIState :=
  { initUI with isZoomed := true, zoomedModel := some 0,
                isMouseDown := true, scrollOffset := 700 }

/-! ## Theorems -/

/-! ### Fuzzy filter lemmas -/

theorem matchTail_nil_left (s : List Char) : matchTail [] s = true := by
  cases s <;> rfl

theorem matchTail_of_lower_eq :
    ∀ qs cs : List Char, qs.map Char.toLower = cs.map Char.toLower →
      matchTail qs cs = true := by
  intro qs
  induction qs with
  | nil => intro cs _; exact matchTail_nil_left cs
  | cons q qs1 ih =>
    intro cs h
    cases cs with
    | nil => simp at h
    | cons c cs1 =>
      simp only [List.map_cons, List.cons.injEq] at h
      have hc : ciEq q c = true := by
        simp [ciEq, h.1]
      simp [matchTail, hc, ih cs1 h.2]

theorem fuzzySearch_of_lower_eq :
    ∀ qs cs : List Char, qs.map Char.toLower = cs.map Char.toLower →
      fuzzySearch qs cs = true := by
  intro qs cs h
  cases qs with
  | nil => cases cs <;> rfl
  | cons q qs1 =>
    cases cs with
    | nil => simp at h
    | cons c cs1 =>
      simp only [List.map_cons, List.cons.injEq] at h
      have hc : ciEq q c = true := by
        simp [ciEq, h.1]
      simp [fuzzySearch, hc, matchTail_of_lower_eq qs1 cs1 h.2]

theorem matchTail_eq_isSubseqCI :
    ∀ cs qs : List Char, (∀ c ∈ cs, isLineTerm c = false) →
      matchTail qs cs = isSubseqCI qs cs := by
  intro cs
  induction cs with
  | nil => intro qs _; cases qs <;> rfl
  | cons c cs1 ih =>
    intro qs h
    cases qs with
    | nil => rfl
    | cons q qs1 =>
      have hc : isLineTerm c = false := h c (List.mem_cons_self c cs1)
      have hrest : ∀ x ∈ cs1, isLineTerm x = false :=
        fun x hx => h x (List.mem_cons_of_mem c hx)
      simp [matchTail, isSubseqCI, hc, ih qs1 hrest, ih (q :: qs1) hrest]

theorem fuzzySearch_eq_isSubseqCI :
    ∀ cs qs : List Char, (∀ c ∈ cs, isLineTerm c = false) →
      fuzzySearch qs cs = isSubseqCI qs cs := by
  intro cs
  induction cs with
  | nil => intro qs _; cases qs <;> rfl
  | cons c cs1 ih =>
    intro qs h
    cases qs with
    | nil => rfl
    | cons q qs1 =>
      have hrest : ∀ x ∈ cs1, isLineTerm x = false :=
        fun x hx => h x (List.mem_cons_of_mem c hx)
      simp [fuzzySearch, isSubseqCI, matchTail_eq_isSubseqCI cs1 qs1 hrest,
        ih (q :: qs1) hrest]

theorem escapeRegex_id :
    ∀ l : List Char, (∀ c ∈ l, isRegexSpecial c = false) → escapeRegex l = l := by
  intro l
  induction l with
  | nil => intro _; rfl
  | cons c cs ih =>
    intro h
    have hc : isRegexSpecial c = false := h c (List.mem_cons_self c cs)
    have hrest : ∀ x ∈ cs, isRegexSpecial x = false :=
      fun x hx => h x (List.mem_cons_of_mem c hx)
    simp [escapeRegex, hc, ih hrest]

/-- C2 is false as stated, in two independent ways.  First, the compiled
wildcard does not match a line terminator, so for a name with a newline
between the two query characters the code's filter rejects while the claimed
ordered-subsequence test ("any characters between") accepts.  Second, the
claimed escaping does not survive the construction: the escape backslash
inserted for a metacharacter is detached by the character-wise split and
joined to the following wildcard dot, so the query consisting of one dot
compiles to the pattern backslash dot star dot — zero or more literal dots
followed by an arbitrary character, which matches any nonempty name instead
of requiring the dot to appear — and the query consisting of one opening
parenthesis compiles to backslash dot star parenthesis, an invalid pattern on
which the RegExp constructor throws, aborting performLayout. -/
theorem c2_filter_counterexample :
    (matchesFuzzy "ab" "a\nb" = false ∧ subseqFilter "ab" "a\nb" = true)
    ∧ fuzzyPattern "." = ['\\', '.', '*', '.']
    ∧ fuzzyPattern "(" = ['\\', '.', '*', '('] := by
  decide

/-- C2 (amended): for search strings free of regex metacharacters — on which
the escape step of createFuzzyRegex is the identity, so the character-wise
split-and-join produces the intended pattern of literals separated by
wildcards — the filter is a case-insensitive ordered-subsequence test in
which the characters skipped between two matched query characters may not
include a line terminator (on names free of line terminators it coincides
with the plain ordered-subsequence test); the empty query matches every
object, and such a query equal to an object's full name (up to case) always
matches that object.  Queries containing metacharacters are not matched
literally (or do not compile at all), as the counterexample shows at the
pattern level, so no subsequence reading holds for them. -/
theorem c2_filter_amended (term name : String)
    (hplain : ∀ c ∈ term.data, isRegexSpecial c = false) :
    escapeRegex term.data = term.data
    ∧ matchesFuzzy "" name = true
    ∧ (term.data.map Char.toLower = name.data.map Char.toLower →
        matchesFuzzy term name = true)
    ∧ ((∀ c ∈ name.data, isLineTerm c = false) →
        matchesFuzzy term name = subseqFilter term name) := by
  refine ⟨escapeRegex_id term.data hplain, rfl, ?_, ?_⟩
  · intro h
    unfold matchesFuzzy
    split
    · rfl
    · exact fuzzySearch_of_lower_eq term.data name.data h
  · intro h
    unfold matchesFuzzy subseqFilter
    split
    · rfl
    · exact fuzzySearch_eq_isSubseqCI name.data term.data h

theorem c2_filter_amended_witness :
    escapeRegex "AplSTL".data = "AplSTL".data
    ∧ matchesFuzzy "" "apleSTL" = true
    ∧ matchesFuzzy "AplSTL" "aplstl" = true
    ∧ matchesFuzzy "AplSTL" "apleSTL" = subseqFilter "AplSTL" "apleSTL" :=
  ⟨(c2_filter_amended "AplSTL" "aplstl" (by decide)).1,
   (c2_filter_amended "AplSTL" "apleSTL" (by decide)).2.1,
   (c2_filter_amended "AplSTL" "aplstl" (by decide)).2.2.1 (by decide),
   (c2_filter_amended "AplSTL" "apleSTL" (by decide)).2.2.2 (by decide)⟩

/-! ### Layout lemmas -/

theorem layoutGo_getElem? (cols : Nat) (gy : ℚ) (term : String) :
    ∀ (l : List Model) (vi j : Nat),
      (layoutGo cols gy term vi l)[j]? = (l[j]?).map (fun m =>
        if matchesFuzzy term m.fileName then
          placeModel cols gy (vi + countMatches term (l.take j)) m
        else hideModel m) := by
  intro l
  induction l with
  | nil => intro vi j; simp [layoutGo]
  | cons m rest ih =>
    intro vi j
    cases hm : matchesFuzzy term m.fileName with
    | true =>
      cases j with
      | zero => simp [layoutGo, hm, countMatches]
      | succ j =>
        rw [List.take_succ_cons]
        have hcnt : countMatches term (m :: List.take j rest) =
            countMatches term (List.take j rest) + 1 := by
          simp [countMatches, List.countP_cons, hm]
        simp only [layoutGo, hm, if_true, List.getElem?_cons_succ, hcnt, ih]
        congr 1
        funext m1
        by_cases h1 : matchesFuzzy term m1.fileName
        · simp only [h1, if_true]
          congr 1
          omega
        · simp [h1]
    | false =>
      cases j with
      | zero => simp [layoutGo, hm, countMatches]
      | succ j =>
        rw [List.take_succ_cons]
        have hcnt : countMatches term (m :: List.take j rest) =
            countMatches term (List.take j rest) := by
          simp [countMatches, List.countP_cons, hm]
        simp only [layoutGo, hm, Bool.false_eq_true, if_false,
          List.getElem?_cons_succ, hcnt, ih]

/-- C1: performLayout assigns grid positions only to objects whose filter flag
is true, taken in ascending load-index order and re-indexed contiguously from
zero among the matches: the i-th match lands at row floor(i/cols) and column
i mod cols, i.e. at x = -(cols-1)*650/2 + col*650, y = gridYOffset - row*650,
z = 0, and is made visible, while every non-matching object is marked not
visible and keeps its previous position. -/
theorem c1_layout_rowmajor (cols : Nat) (gridYOffset : ℚ) (term : String)
    (hcols : cols = 2 ∨ cols = 4 ∨ cols = 6)
    (models : List Model) (j : Nat) (m : Model)
    (hj : (sortByIdentity models)[j]? = some m) :
    (matchesFuzzy term m.fileName = true →
       (layoutModels cols gridYOffset term models)[j]? =
         some (placeModel cols gridYOffset
                 (countMatches term ((sortByIdentity models).take j)) m))
    ∧ (matchesFuzzy term m.fileName = false →
       (layoutModels cols gridYOffset term models)[j]? = some (hideModel m))
    ∧ (∀ i : Nat, placeModel cols gridYOffset i m =
        { m with
          matchesSearch := true, visible := true,
          position := (-(((cols : ℚ) - 1) * 650) / 2 + ((i % cols : ℕ) : ℚ) * 650,
                       gridYOffset - ((i / cols : ℕ) : ℚ) * 650, 0),
          originalPosition :=
            some (-(((cols : ℚ) - 1) * 650) / 2 + ((i % cols : ℕ) : ℚ) * 650,
                  gridYOffset - ((i / cols : ℕ) : ℚ) * 650, 0),
          sphereCenter := (-(((cols : ℚ) - 1) * 650) / 2 + ((i % cols : ℕ) : ℚ) * 650,
                           gridYOffset - ((i / cols : ℕ) : ℚ) * 650, 0) })
    ∧ (hideModel m = { m with matchesSearch := false, visible := false }) := by
  refine ⟨?_, ?_, fun i => rfl, rfl⟩
  · intro hm
    rw [layoutModels, layoutGo_getElem?, hj]
    simp [hm]
  · intro hm
    rw [layoutModels, layoutGo_getElem?, hj]
    simp [hm]

theorem c1_layout_rowmajor_witness :
    (matchesFuzzy "b" (mkModel 2 "abc").fileName = true →
       (layoutModels 2 200 "b" [mkModel 0 "alpha", mkModel 1 "beta", mkModel 2 "abc"])[2]? =
         some (placeModel 2 200
                 (countMatches "b"
                   ((sortByIdentity
                      [mkModel 0 "alpha", mkModel 1 "beta", mkModel 2 "abc"]).take 2))
                 (mkModel 2 "abc")))
    ∧ (matchesFuzzy "b" (mkModel 2 "abc").fileName = false →
       (layoutModels 2 200 "b" [mkModel 0 "alpha", mkModel 1 "beta", mkModel 2 "abc"])[2]? =
         some (hideModel (mkModel 2 "abc")))
    ∧ (∀ i : Nat, placeModel 2 200 i (mkModel 2 "abc") =
        { mkModel 2 "abc" with
          matchesSearch := true, visible := true,
          position := (-(((2 : ℚ) - 1) * 650) / 2 + ((i % 2 : ℕ) : ℚ) * 650,
                       (200 : ℚ) - ((i / 2 : ℕ) : ℚ) * 650, 0),
          originalPosition :=
            some (-(((2 : ℚ) - 1) * 650) / 2 + ((i % 2 : ℕ) : ℚ) * 650,
                  (200 : ℚ) - ((i / 2 : ℕ) : ℚ) * 650, 0),
          sphereCenter := (-(((2 : ℚ) - 1) * 650) / 2 + ((i % 2 : ℕ) : ℚ) * 650,
                           (200 : ℚ) - ((i / 2 : ℕ) : ℚ) * 650, 0) })
    ∧ (hideModel (mkModel 2 "abc") =
        { mkModel 2 "abc" with matchesSearch := false, visible := false }) :=
  c1_layout_rowmajor 2 200 "b" (Or.inl rfl)
    [mkModel 0 "alpha", mkModel 1 "beta", mkModel 2 "abc"] 2 (mkModel 2 "abc") rfl

/-! ### Layout idempotence -/

instance : IsTotal Model (fun a b => a.index ≤ b.index) :=
  ⟨fun a b => Nat.le_total a.index b.index⟩

instance : IsTrans Model (fun a b => a.index ≤ b.index) :=
  ⟨fun _ _ _ h1 h2 => Nat.le_trans h1 h2⟩

theorem layoutGo_index_map (cols : Nat) (gy : ℚ) (term : String) :
    ∀ (l : List Model) (vi : Nat),
      (layoutGo cols gy term vi l).map (·.index) = l.map (·.index) := by
  intro l
  induction l with
  | nil => intro vi; rfl
  | cons m rest ih =>
    intro vi
    cases hm : matchesFuzzy term m.fileName <;>
      simp [layoutGo, hm, placeModel, hideModel, ih]

theorem layoutGo_idem (cols : Nat) (gy : ℚ) (term : String) :
    ∀ (l : List Model) (vi : Nat),
      layoutGo cols gy term vi (layoutGo cols gy term vi l) =
        layoutGo cols gy term vi l := by
  intro l
  induction l with
  | nil => intro vi; rfl
  | cons m rest ih =>
    intro vi
    cases hm : matchesFuzzy term m.fileName with
    | true =>
      have hm1 : matchesFuzzy term (placeModel cols gy vi m).fileName = true := hm
      have hpp : placeModel cols gy vi (placeModel cols gy vi m) =
          placeModel cols gy vi m := rfl
      simp [layoutGo, hm, hm1, hpp, ih]
    | false =>
      have hm1 : matchesFuzzy term (hideModel m).fileName = false := hm
      have hhh : hideModel (hideModel m) = hideModel m := rfl
      simp [layoutGo, hm, hm1, hhh, ih]

/-- C9: performLayout is idempotent: a second run with unchanged inputs (same
objects, same filter text, same column count and vertical origin) reproduces
exactly the state of the first run, because the load-index sort order is
deterministic and each slot assignment depends only on data the first run
preserves. -/
theorem c9_layout_idempotent (cols : Nat) (gridYOffset : ℚ) (term : String)
    (models : List Model) :
    layoutModels cols gridYOffset term (layoutModels cols gridYOffset term models) =
      layoutModels cols gridYOffset term models := by
  unfold layoutModels
  have hsorted0 :
      List.Pairwise (fun a b : Model => a.index ≤ b.index) (sortByIdentity models) :=
    List.sorted_insertionSort (fun a b : Model => a.index ≤ b.index) models
  have hmap :
      (layoutGo cols gridYOffset term 0 (sortByIdentity models)).map (·.index) =
        (sortByIdentity models).map (·.index) :=
    layoutGo_index_map cols gridYOffset term (sortByIdentity models) 0
  have hsorted :
      List.Pairwise (fun a b : Model => a.index ≤ b.index)
        (layoutGo cols gridYOffset term 0 (sortByIdentity models)) := by
    have h1 := List.pairwise_map.mpr hsorted0
    rw [← hmap] at h1
    exact List.pairwise_map.mp h1
  have heq :
      sortByIdentity (layoutGo cols gridYOffset term 0 (sortByIdentity models)) =
        layoutGo cols gridYOffset term 0 (sortByIdentity models) :=
    List.Sorted.insertionSort_eq hsorted
  rw [heq, layoutGo_idem]

/-! ### Scroll clamping -/

theorem maxScroll_nonneg (rows : Nat) (gy : ℚ) : 0 ≤ maxScroll rows gy := by
  rw [maxScroll]
  exact le_max_left 0 _

theorem scrollStep_bounds (rows : Nat) (gy off d : ℚ) :
    0 ≤ scrollStep rows gy off d ∧ scrollStep rows gy off d ≤ maxScroll rows gy := by
  constructor
  · exact le_max_left 0 _
  · rw [scrollStep]
    exact max_le (maxScroll_nonneg rows gy) (min_le_right _ _)

/-- C3: the accumulated scroll offset stays inside the interval from 0 to
maxScroll = max(0, visibleRows * SPACING - gridYOffset) after any sequence of
wheel and touch scroll inputs, however large the individual deltas are, because
both handlers clamp after every update. -/
theorem c3_scroll_clamped (rows : Nat) (gy off : ℚ) (ins : List ScrollInput)
    (h0 : 0 ≤ off) (h1 : off ≤ maxScroll rows gy) :
    0 ≤ runScroll rows gy off ins ∧ runScroll rows gy off ins ≤ maxScroll rows gy := by
  induction ins generalizing off with
  | nil => exact ⟨h0, h1⟩
  | cons i ins ih =>
    have hb := scrollStep_bounds rows gy off (scrollDelta i)
    simpa [runScroll] using ih (scrollStep rows gy off (scrollDelta i)) hb.1 hb.2

theorem c3_scroll_clamped_witness :
    0 ≤ runScroll 1 200 0 [ScrollInput.wheel 100000, ScrollInput.touch 600,
                           ScrollInput.wheel (-999999)]
    ∧ runScroll 1 200 0 [ScrollInput.wheel 100000, ScrollInput.touch 600,
                         ScrollInput.wheel (-999999)] ≤ maxScroll 1 200 :=
  c3_scroll_clamped 1 200 0 _ le_rfl (maxScroll_nonneg 1 200)

/-! ### Orbit polar angle clamp -/

theorem phiStep_bounds (phi dy : ℝ) :
    0.1 ≤ phiStep phi dy ∧ phiStep phi dy ≤ Real.pi - 0.1 := by
  constructor
  · exact le_max_left _ _
  · rw [phiStep, phiClamp]
    have hpi : (0.1 : ℝ) ≤ Real.pi - 0.1 := by
      nlinarith [Real.pi_gt_three]
    exact max_le hpi (min_le_left _ _)

/-- C4 is false exactly as stated: the clamp is to the closed interval, so the
boundary value 0.1 is reachable.  Starting from the polar angle pi/3 set on
entering orbit mode, a single downward drag of 1000 pixels lands exactly on
0.1, which is not strictly inside the open interval (0.1, pi - 0.1). -/
theorem c4_phi_counterexample :
    runPhi (Real.pi / 3) [1000] = 0.1 ∧ ¬ (0.1 < runPhi (Real.pi / 3) [1000]) := by
  have hval : runPhi (Real.pi / 3) [1000] = 0.1 := by
    simp only [runPhi, List.foldl_cons, List.foldl_nil, phiStep, phiClamp]
    rw [min_eq_right, max_eq_left]
    · nlinarith [Real.pi_lt_d2]
    · nlinarith [Real.pi_gt_three]
  exact ⟨hval, by rw [hval]; exact lt_irrefl _⟩

/-- C4 (amended): after any sequence of orbit drag inputs (mouse or touch) the
polar angle lies in the closed interval from 0.1 to pi - 0.1 whenever it starts
there (the handlers clamp with max/min, so the endpoints are attainable but
never exceeded). -/
theorem c4_phi_clamped (phi : ℝ) (ds : List ℝ)
    (h0 : 0.1 ≤ phi) (h1 : phi ≤ Real.pi - 0.1) :
    0.1 ≤ runPhi phi ds ∧ runPhi phi ds ≤ Real.pi - 0.1 := by
  induction ds generalizing phi with
  | nil => exact ⟨h0, h1⟩
  | cons d ds ih =>
    have hb := phiStep_bounds phi d
    simpa [runPhi] using ih (phiStep phi d) hb.1 hb.2

theorem c4_phi_clamped_witness :
    0.1 ≤ runPhi 1 [250, -3000, 42] ∧ runPhi 1 [250, -3000, 42] ≤ Real.pi - 0.1 :=
  c4_phi_clamped 1 [250, -3000, 42] (by norm_num)
    (by nlinarith [Real.pi_gt_three])

/-! ### Display scale of degenerate geometry -/

/-- C6 records a code bug: loadModel computes the display scale as
MODEL_SIZE / maxDim with no guard at all, so a mesh whose bounding box has
size zero in every dimension makes the divisor exactly zero — the division by
zero the specification requires to be guarded (fallback scale or skip) happens
unchecked in the source. -/
theorem c6_scale_divisor_zero :
    maxDim (0, 0, 0) = 0 ∧ displayScale (0, 0, 0) = MODEL_SIZE / 0 := by
  constructor
  · norm_num [maxDim]
  · norm_num [displayScale, maxDim]

/-! ### Hit-testing -/

/-- C8: the hit query used both for click selection and for per-frame hover
returns the first entry, in the deterministic order of the bounding-sphere
list, whose model matches the filter and whose sphere the camera ray hits; an
entry whose filter flag is false is never returned, whatever the ray does. -/
theorem c8_hittest_first_match (rayHits : Sphere → Bool) (entries : List SphereEntry) :
    (∀ e, hitTest rayHits entries = some e →
       e.model.matchesSearch = true ∧ rayHits e.sphere = true ∧
       ∃ i, ∃ hi : i < entries.length,
         entries.get ⟨i, hi⟩ = e ∧
         ∀ j, ∀ hj : j < entries.length, j < i →
           ((entries.get ⟨j, hj⟩).model.matchesSearch &&
             rayHits (entries.get ⟨j, hj⟩).sphere) = false)
    ∧ (∀ e, e.model.matchesSearch = false → hitTest rayHits entries ≠ some e) := by
  constructor
  · intro e he
    rw [hitTest] at he
    have hp := List.find?_some he
    simp only [Bool.and_eq_true] at hp
    refine ⟨hp.1, hp.2, ?_⟩
    clear hp
    induction entries with
    | nil => simp at he
    | cons a l ih =>
      by_cases ha : (a.model.matchesSearch && rayHits a.sphere) = true
      · rw [@List.find?_cons_of_pos SphereEntry
            (fun it => it.model.matchesSearch && rayHits it.sphere) a l ha] at he
        cases he
        exact ⟨0, by simp, rfl, fun j hj hj0 => absurd hj0 (Nat.not_lt_zero j)⟩
      · rw [@List.find?_cons_of_neg SphereEntry
            (fun it => it.model.matchesSearch && rayHits it.sphere) a l
            (by simpa using ha)] at he
        obtain ⟨i, hi, hget, hbefore⟩ := ih he
        refine ⟨i + 1, by simpa using Nat.succ_lt_succ hi, by simpa using hget, ?_⟩
        intro j hj hj1
        cases j with
        | zero => simpa using Bool.of_not_eq_true ha
        | succ j =>
          have hj2 : j < l.length := by simpa using hj
          have := hbefore j hj2 (Nat.lt_of_succ_lt_succ hj1)
          simpa using this
  · intro e hmatch hcontra
    rw [hitTest] at hcontra
    have hp := List.find?_some hcontra
    simp only [Bool.and_eq_true] at hp
    rw [hmatch] at hp
    simp at hp

theorem c8_hittest_first_match_witness :
    ((mkModel 1 "b").matchesSearch = true ∧
       (fun _ : Sphere => true) (Sphere.mk (0, 0, 0) 280) = true ∧
       ∃ i, ∃ hi : i <
           [SphereEntry.mk (Sphere.mk (0, 0, 0) 280) (hideModel (mkModel 0 "a")),
            SphereEntry.mk (Sphere.mk (0, 0, 0) 280) (mkModel 1 "b")].length,
         [SphereEntry.mk (Sphere.mk (0, 0, 0) 280) (hideModel (mkModel 0 "a")),
          SphereEntry.mk (Sphere.mk (0, 0, 0) 280) (mkModel 1 "b")].get ⟨i, hi⟩ =
           SphereEntry.mk (Sphere.mk (0, 0, 0) 280) (mkModel 1 "b") ∧
         ∀ j, ∀ hj : j <
             [SphereEntry.mk (Sphere.mk (0, 0, 0) 280) (hideModel (mkModel 0 "a")),
              SphereEntry.mk (Sphere.mk (0, 0, 0) 280) (mkModel 1 "b")].length, j < i →
           (([SphereEntry.mk (Sphere.mk (0, 0, 0) 280) (hideModel (mkModel 0 "a")),
              SphereEntry.mk (Sphere.mk (0, 0, 0) 280) (mkModel 1 "b")].get
                ⟨j, hj⟩).model.matchesSearch &&
             (fun _ : Sphere => true)
               ([SphereEntry.mk (Sphere.mk (0, 0, 0) 280) (hideModel (mkModel 0 "a")),
                 SphereEntry.mk (Sphere.mk (0, 0, 0) 280) (mkModel 1 "b")].get
                  ⟨j, hj⟩).sphere) = false)
    ∧ hitTest (fun _ : Sphere => true)
        [SphereEntry.mk (Sphere.mk (0, 0, 0) 280) (hideModel (mkModel 0 "a")),
         SphereEntry.mk (Sphere.mk (0, 0, 0) 280) (mkModel 1 "b")] ≠
        some (SphereEntry.mk (Sphere.mk (0, 0, 0) 280) (hideModel (mkModel 0 "a"))) :=
  ⟨(c8_hittest_first_match (fun _ : Sphere => true)
      [SphereEntry.mk (Sphere.mk (0, 0, 0) 280) (hideModel (mkModel 0 "a")),
       SphereEntry.mk (Sphere.mk (0, 0, 0) 280) (mkModel 1 "b")]).1
      (SphereEntry.mk (Sphere.mk (0, 0, 0) 280) (mkModel 1 "b")) rfl,
   (c8_hittest_first_match (fun _ : Sphere => true)
      [SphereEntry.mk (Sphere.mk (0, 0, 0) 280) (hideModel (mkModel 0 "a")),
       SphereEntry.mk (Sphere.mk (0, 0, 0) 280) (mkModel 1 "b")]).2
      (SphereEntry.mk (Sphere.mk (0, 0, 0) 280) (hideModel (mkModel 0 "a"))) rfl⟩

/-! ### Interaction machine lemmas -/

theorem runUI_cons (hitAt : ℚ × ℚ → Option Nat) (s : UIState) (e : UIEvent)
    (es : List UIEvent) :
    runUI hitAt s (e :: es) = runUI hitAt (stepUI hitAt s e) es := rfl

theorem runUI_append (hitAt : ℚ × ℚ → Option Nat) (s : UIState)
    (es1 es2 : List UIEvent) :
    runUI hitAt s (es1 ++ es2) = runUI hitAt (runUI hitAt s es1) es2 :=
  List.foldl_append _ _ _ _

theorem stepUI_mouseMove_zoom (hitAt : ℚ × ℚ → Option Nat) (s : UIState) (x y : ℚ) :
    (stepUI hitAt s (.mouseMove x y)).isZoomed = s.isZoomed ∧
    (stepUI hitAt s (.mouseMove x y)).zoomedModel = s.zoomedModel ∧
    (stepUI hitAt s (.mouseMove x y)).isMouseDown = s.isMouseDown ∧
    (stepUI hitAt s (.mouseMove x y)).scrollOffset = s.scrollOffset := by
  simp only [stepUI]
  split
  · split
    · exact ⟨rfl, rfl, rfl, rfl⟩
    · split
      · exact ⟨rfl, rfl, rfl, rfl⟩
      · exact ⟨rfl, rfl, rfl, rfl⟩
  · exact ⟨rfl, rfl, rfl, rfl⟩

theorem stepUI_mouseMove_flag (hitAt : ℚ × ℚ → Option Nat) (s : UIState) (x y : ℚ)
    (hdown : s.isMouseDown = true) (hz : s.isZoomed = true)
    (hm : s.zoomedModel.isSome = true) :
    (stepUI hitAt s (.mouseMove x y)).isDragging =
      (s.isDragging || beyondThreshold (x, y) s.dragStart) ∧
    (s.isDragging = false → beyondThreshold (x, y) s.dragStart = false →
      (stepUI hitAt s (.mouseMove x y)).dragStart = s.dragStart) := by
  cases hd : s.isDragging with
  | true =>
    constructor
    · simp [stepUI, hdown, hz, hm, hd]
    · intro hcontra; cases hcontra
  | false =>
    cases hb : beyondThreshold (x, y) s.dragStart with
    | true => exact ⟨by simp [stepUI, hdown, hz, hm, hd, hb], fun _ h => by cases h⟩
    | false => exact ⟨by simp [stepUI, hdown, hz, hm, hd, hb], fun _ _ => by
        simp [stepUI, hdown, hz, hm, hd, hb]⟩

theorem stepUI_mouseMove_resting (hitAt : ℚ × ℚ → Option Nat) (s : UIState)
    (x y : ℚ) (hz : s.isZoomed = false) :
    stepUI hitAt s (.mouseMove x y) = { s with mouse := (x, y) } := by
  simp [stepUI, hz]

theorem runUI_moves_resting (hitAt : ℚ × ℚ → Option Nat) (moves : List (ℚ × ℚ)) :
    ∀ s : UIState, s.isZoomed = false →
      (runUI hitAt s (moves.map (fun p => UIEvent.mouseMove p.1 p.2))).isZoomed = false ∧
      (runUI hitAt s (moves.map (fun p => UIEvent.mouseMove p.1 p.2))).zoomedModel =
        s.zoomedModel ∧
      (runUI hitAt s (moves.map (fun p => UIEvent.mouseMove p.1 p.2))).isDragging =
        s.isDragging ∧
      (runUI hitAt s (moves.map (fun p => UIEvent.mouseMove p.1 p.2))).isMouseDown =
        s.isMouseDown := by
  induction moves with
  | nil => intro s hz; exact ⟨hz, rfl, rfl, rfl⟩
  | cons p ps ih =>
    intro s hz
    rw [List.map_cons, runUI_cons, stepUI_mouseMove_resting hitAt s p.1 p.2 hz]
    exact ih { s with mouse := (p.1, p.2) } hz

theorem runUI_moves_orbit_dragging (hitAt : ℚ × ℚ → Option Nat)
    (moves : List (ℚ × ℚ)) :
    ∀ s : UIState, s.isMouseDown = true → s.isZoomed = true →
      s.zoomedModel.isSome = true → s.isDragging = true →
      (runUI hitAt s (moves.map (fun p => UIEvent.mouseMove p.1 p.2))).isMouseDown = true ∧
      (runUI hitAt s (moves.map (fun p => UIEvent.mouseMove p.1 p.2))).isZoomed = true ∧
      (runUI hitAt s (moves.map (fun p => UIEvent.mouseMove p.1 p.2))).zoomedModel =
        s.zoomedModel ∧
      (runUI hitAt s (moves.map (fun p => UIEvent.mouseMove p.1 p.2))).isDragging = true := by
  induction moves with
  | nil => intro s h1 h2 h3 h4; exact ⟨h1, h2, rfl, h4⟩
  | cons p ps ih =>
    intro s h1 h2 h3 h4
    rw [List.map_cons, runUI_cons]
    obtain ⟨hz, hm, hd, _⟩ := stepUI_mouseMove_zoom hitAt s p.1 p.2
    obtain ⟨hflag, _⟩ := stepUI_mouseMove_flag hitAt s p.1 p.2 h1 h2 h3
    have h4s : (stepUI hitAt s (.mouseMove p.1 p.2)).isDragging = true := by
      rw [hflag, h4, Bool.true_or]
    obtain ⟨a1, a2, a3, a4⟩ := ih (stepUI hitAt s (.mouseMove p.1 p.2))
      (by rw [hd, h1]) (by rw [hz, h2]) (by rw [hm]; exact h3) h4s
    exact ⟨a1, a2, by rw [a3, hm], a4⟩

theorem runUI_moves_orbit (hitAt : ℚ × ℚ → Option Nat) (moves : List (ℚ × ℚ)) :
    ∀ s : UIState, s.isMouseDown = true → s.isZoomed = true →
      s.zoomedModel.isSome = true → s.isDragging = false →
      (runUI hitAt s (moves.map (fun p => UIEvent.mouseMove p.1 p.2))).isMouseDown = true ∧
      (runUI hitAt s (moves.map (fun p => UIEvent.mouseMove p.1 p.2))).isZoomed = true ∧
      (runUI hitAt s (moves.map (fun p => UIEvent.mouseMove p.1 p.2))).zoomedModel =
        s.zoomedModel ∧
      (runUI hitAt s (moves.map (fun p => UIEvent.mouseMove p.1 p.2))).isDragging =
        mouseCrossed s.dragStart moves := by
  induction moves with
  | nil =>
    intro s h1 h2 h3 h4
    refine ⟨h1, h2, rfl, ?_⟩
    show s.isDragging = mouseCrossed s.dragStart []
    rw [h4, mouseCrossed, List.any_nil]
  | cons p ps ih =>
    intro s h1 h2 h3 h4
    rw [List.map_cons, runUI_cons]
    obtain ⟨hz, hm, hd, _⟩ := stepUI_mouseMove_zoom hitAt s p.1 p.2
    obtain ⟨hflag, hstart⟩ := stepUI_mouseMove_flag hitAt s p.1 p.2 h1 h2 h3
    cases hb : beyondThreshold (p.1, p.2) s.dragStart with
    | true =>
      have h4s : (stepUI hitAt s (.mouseMove p.1 p.2)).isDragging = true := by
        rw [hflag, h4, hb, Bool.false_or]
      obtain ⟨a1, a2, a3, a4⟩ := runUI_moves_orbit_dragging hitAt ps
        (stepUI hitAt s (.mouseMove p.1 p.2))
        (by rw [hd, h1]) (by rw [hz, h2]) (by rw [hm]; exact h3) h4s
      refine ⟨a1, a2, by rw [a3, hm], ?_⟩
      rw [a4, mouseCrossed, List.any_cons]
      have : beyondThreshold p s.dragStart = true := by
        have hp : p = (p.1, p.2) := rfl
        rw [hp]; exact hb
      rw [this, Bool.true_or]
    | false =>
      have h4s : (stepUI hitAt s (.mouseMove p.1 p.2)).isDragging = false := by
        rw [hflag, h4, hb, Bool.false_or]
      obtain ⟨a1, a2, a3, a4⟩ := ih (stepUI hitAt s (.mouseMove p.1 p.2))
        (by rw [hd, h1]) (by rw [hz, h2]) (by rw [hm]; exact h3) h4s
      refine ⟨a1, a2, by rw [a3, hm], ?_⟩
      rw [a4, hstart h4 hb, mouseCrossed, mouseCrossed, List.any_cons]
      have : beyondThreshold p s.dragStart = false := by
        have hp : p = (p.1, p.2) := rfl
        rw [hp]; exact hb
      rw [this, Bool.false_or]

theorem stepUI_mouseUp_noclick (hitAt : ℚ × ℚ → Option Nat) (s : UIState) (x y : ℚ)
    (hd : s.isDragging = true) :
    (stepUI hitAt s (.mouseUp x y)).isZoomed = s.isZoomed ∧
    (stepUI hitAt s (.mouseUp x y)).zoomedModel = s.zoomedModel := by
  simp [stepUI, hd]

theorem stepUI_mouseUp_click_zoomed (hitAt : ℚ × ℚ → Option Nat) (s : UIState)
    (x y : ℚ) (hd : s.isDragging = false) (hw : s.isMouseDown = true)
    (hz : s.isZoomed = true) :
    (stepUI hitAt s (.mouseUp x y)).isZoomed = false ∧
    (stepUI hitAt s (.mouseUp x y)).zoomedModel = none ∧
    (stepUI hitAt s (.mouseUp x y)).scrollOffset = s.scrollOffset ∧
    (stepUI hitAt s (.mouseUp x y)).targetLookAt = (0, -s.scrollOffset, 0) := by
  simp [stepUI, hd, hw, singleClick, hz, zoomOutU, performLayoutU]

theorem stepUI_mouseUp_click_resting (hitAt : ℚ × ℚ → Option Nat) (s : UIState)
    (x y : ℚ) (hd : s.isDragging = false) (hw : s.isMouseDown = true)
    (hz : s.isZoomed = false) (hm : s.zoomedModel = none) :
    (stepUI hitAt s (.mouseUp x y)).zoomedModel = hitAt (x, y) ∧
    (stepUI hitAt s (.mouseUp x y)).isZoomed = (hitAt (x, y)).isSome := by
  cases hh : hitAt (x, y) with
  | none => simp [stepUI, hd, hw, singleClick, hz, hh, hm]
  | some k => simp [stepUI, hd, hw, singleClick, hz, hh, zoomInU]

theorem stepUI_touchMove (hitAt : ℚ × ℚ → Option Nat) (s : UIState) (x y : ℚ) :
    (stepUI hitAt s (.touchMoveEv x y)).isDragging =
      (s.isDragging || beyondThreshold (x, y) s.touchStart) ∧
    (stepUI hitAt s (.touchMoveEv x y)).touchStart = (x, y) ∧
    (stepUI hitAt s (.touchMoveEv x y)).isZoomed = s.isZoomed ∧
    (stepUI hitAt s (.touchMoveEv x y)).zoomedModel = s.zoomedModel ∧
    (stepUI hitAt s (.touchMoveEv x y)).isMouseDown = s.isMouseDown ∧
    (stepUI hitAt s (.touchMoveEv x y)).mouse = s.mouse := by
  refine ⟨?_, ?_, ?_, ?_, ?_, ?_⟩ <;>
    cases hd : s.isDragging <;>
      cases hb : beyondThreshold (x, y) s.touchStart <;>
        simp [stepUI, hd, hb] <;>
          (try split) <;> simp_all

theorem runUI_tmoves (hitAt : ℚ × ℚ → Option Nat) (tmoves : List (ℚ × ℚ)) :
    ∀ s : UIState,
      (runUI hitAt s (tmoves.map (fun p => UIEvent.touchMoveEv p.1 p.2))).isDragging =
        (s.isDragging || touchCrossed s.touchStart tmoves) ∧
      (runUI hitAt s (tmoves.map (fun p => UIEvent.touchMoveEv p.1 p.2))).isZoomed =
        s.isZoomed ∧
      (runUI hitAt s (tmoves.map (fun p => UIEvent.touchMoveEv p.1 p.2))).zoomedModel =
        s.zoomedModel ∧
      (runUI hitAt s (tmoves.map (fun p => UIEvent.touchMoveEv p.1 p.2))).isMouseDown =
        s.isMouseDown ∧
      (runUI hitAt s (tmoves.map (fun p => UIEvent.touchMoveEv p.1 p.2))).mouse =
        s.mouse := by
  induction tmoves with
  | nil =>
    intro s
    refine ⟨?_, rfl, rfl, rfl, rfl⟩
    show s.isDragging = (s.isDragging || touchCrossed s.touchStart [])
    rw [touchCrossed, Bool.or_false]
  | cons p ps ih =>
    intro s
    rw [List.map_cons, runUI_cons]
    obtain ⟨hflag, hts, hz, hm, hmd, hmo⟩ := stepUI_touchMove hitAt s p.1 p.2
    obtain ⟨a1, a2, a3, a4, a5⟩ := ih (stepUI hitAt s (.touchMoveEv p.1 p.2))
    have hp : p = (p.1, p.2) := rfl
    refine ⟨?_, by rw [a2, hz], by rw [a3, hm], by rw [a4, hmd], by rw [a5, hmo]⟩
    rw [a1, hflag, hts, touchCrossed]
    rw [← hp]
    cases s.isDragging <;> cases beyondThreshold p s.touchStart <;>
      cases touchCrossed p ps <;> rfl

theorem stepUI_touchEnd_noclick (hitAt : ℚ × ℚ → Option Nat) (s : UIState)
    (hd : s.isDragging = true) :
    (stepUI hitAt s .touchEndEv).isZoomed = s.isZoomed ∧
    (stepUI hitAt s .touchEndEv).zoomedModel = s.zoomedModel := by
  simp [stepUI, hd]

theorem stepUI_touchEnd_click_zoomed (hitAt : ℚ × ℚ → Option Nat) (s : UIState)
    (hd : s.isDragging = false) (hz : s.isZoomed = true) :
    (stepUI hitAt s .touchEndEv).isZoomed = false ∧
    (stepUI hitAt s .touchEndEv).zoomedModel = none := by
  simp [stepUI, hd, singleClick, hz, zoomOutU, performLayoutU]

theorem stepUI_touchEnd_click_resting (hitAt : ℚ × ℚ → Option Nat) (s : UIState)
    (hd : s.isDragging = false) (hz : s.isZoomed = false)
    (hm : s.zoomedModel = none) :
    (stepUI hitAt s .touchEndEv).zoomedModel = hitAt s.mouse ∧
    (stepUI hitAt s .touchEndEv).isZoomed = (hitAt s.mouse).isSome := by
  cases hh : hitAt s.mouse with
  | none => simp [stepUI, hd, singleClick, hz, hh, hm]
  | some k => simp [stepUI, hd, singleClick, hz, hh, zoomInU]

theorem stepUI_clearSelection_zoomed (hitAt : ℚ × ℚ → Option Nat) (s : UIState)
    (hz : s.isZoomed = true) :
    (stepUI hitAt s .clearSelection).isZoomed = false ∧
    (stepUI hitAt s .clearSelection).zoomedModel = none ∧
    (stepUI hitAt s .clearSelection).scrollOffset = s.scrollOffset ∧
    (stepUI hitAt s .clearSelection).targetLookAt = (0, -s.scrollOffset, 0) := by
  simp [stepUI, hz, zoomOutU, performLayoutU]

/-! ### C7: leaving orbit preserves the scroll offset -/

/-- C7: clearing the selection — by a non-dragging click while orbiting or by
the external clear-selection signal — leaves the accumulated scroll offset
unchanged and points the camera look-at target back at the last scroll
position y = -scrollOffset, which is not the origin when the offset was
nonzero before the selection. -/
theorem c7_zoomout_restores_scroll (hitAt : ℚ × ℚ → Option Nat) (s : UIState)
    (x y : ℚ) (hz : s.isZoomed = true) (hd : s.isDragging = false)
    (hw : s.isMouseDown = true) (hnz : s.scrollOffset ≠ 0) :
    ((stepUI hitAt s (.mouseUp x y)).scrollOffset = s.scrollOffset ∧
     (stepUI hitAt s (.mouseUp x y)).targetLookAt = (0, -s.scrollOffset, 0) ∧
     (stepUI hitAt s (.mouseUp x y)).targetLookAt ≠ (0, 0, 0) ∧
     (stepUI hitAt s (.mouseUp x y)).isZoomed = false ∧
     (stepUI hitAt s (.mouseUp x y)).zoomedModel = none) ∧
    ((stepUI hitAt s .clearSelection).scrollOffset = s.scrollOffset ∧
     (stepUI hitAt s .clearSelection).targetLookAt = (0, -s.scrollOffset, 0) ∧
     (stepUI hitAt s .clearSelection).targetLookAt ≠ (0, 0, 0) ∧
     (stepUI hitAt s .clearSelection).isZoomed = false ∧
     (stepUI hitAt s .clearSelection).zoomedModel = none) := by
  have hne : ((0 : ℚ), -s.scrollOffset, (0 : ℚ)) ≠ ((0 : ℚ), (0 : ℚ), (0 : ℚ)) := by
    intro hcontra
    apply hnz
    have h2 := congrArg (fun t : ℚ × ℚ × ℚ => t.2.1) hcontra
    simp at h2
    linarith
  obtain ⟨m1, m2, m3, m4⟩ := stepUI_mouseUp_click_zoomed hitAt s x y hd hw hz
  obtain ⟨c1, c2, c3, c4⟩ := stepUI_clearSelection_zoomed hitAt s hz
  exact ⟨⟨m3, m4, by rw [m4]; exact hne, m1, m2⟩,
         ⟨c3, c4, by rw [c4]; exact hne, c1, c2⟩⟩

theorem c7_zoomout_restores_scroll_witness :
    ((stepUI noHit sampleZoomed (.mouseUp 3 4)).scrollOffset = sampleZoomed.scrollOffset ∧
     (stepUI noHit sampleZoomed (.mouseUp 3 4)).targetLookAt =
       (0, -sampleZoomed.scrollOffset, 0) ∧
     (stepUI noHit sampleZoomed (.mouseUp 3 4)).targetLookAt ≠ (0, 0, 0) ∧
     (stepUI noHit sampleZoomed (.mouseUp 3 4)).isZoomed = false ∧
     (stepUI noHit sampleZoomed (.mouseUp 3 4)).zoomedModel = none) ∧
    ((stepUI noHit sampleZoomed .clearSelection).scrollOffset =
       sampleZoomed.scrollOffset ∧
     (stepUI noHit sampleZoomed .clearSelection).targetLookAt =
       (0, -sampleZoomed.scrollOffset, 0) ∧
     (stepUI noHit sampleZoomed .clearSelection).targetLookAt ≠ (0, 0, 0) ∧
     (stepUI noHit sampleZoomed .clearSelection).isZoomed = false ∧
     (stepUI noHit sampleZoomed .clearSelection).zoomedModel = none) :=
  c7_zoomout_restores_scroll noHit sampleZoomed 3 4 rfl rfl rfl
    (by norm_num [sampleZoomed, initUI])

/-! ### C5: drag-versus-click disambiguation -/

/-- C5 is false exactly as stated: while no object is zoomed the mouse-move
handler never sets the dragging flag (its threshold logic sits behind the
isZoomed guard at line 357), so a mouse drag far beyond the 5-pixel threshold
still ends in a click: from the initial resting state, pressing at the origin,
moving 100 pixels and releasing selects the model the ray hits — the release
triggers a selection change even though the gesture crossed the threshold. -/
theorem c5_drag_counterexample :
    mouseCrossed (0, 0) [(100, 100)] = true
    ∧ initUI.zoomedModel = none
    ∧ (runUI alwaysHit0 initUI (mouseGesture (0, 0) [(100, 100)] (100, 100))).zoomedModel =
        some 0
    ∧ (runUI alwaysHit0 initUI (mouseGesture (0, 0) [(100, 100)] (100, 100))).isZoomed =
        true := by
  refine ⟨?_, rfl, rfl, rfl⟩
  simp only [mouseCrossed, List.any_cons, List.any_nil, beyondThreshold,
    Bool.or_false, Bool.or_eq_true, decide_eq_true_eq]
  norm_num

/-- C5 (amended): the threshold rule holds for touch gestures in either mode
(the touch handler sets the dragging flag irrespective of zoom) and for mouse
gestures performed while an object is selected; for mouse it is cumulative
(some move beyond 5 pixels from the press point), for touch it is incremental
(some move beyond 5 pixels from the previous touch point), and in all these
cases a release after crossing never changes the selection while a release
without crossing acts as a click (while orbiting it clears the selection,
while resting it hit-tests at the gesture start).  For mouse gestures
performed while nothing is selected the dragging flag is never set, so the
release always performs the click hit-test regardless of how far the pointer
moved. -/
theorem c5_drag_amended (hitAt : ℚ × ℚ → Option Nat) (s s2 : UIState) (m : Nat)
    (press release st : ℚ × ℚ) (moves tmoves : List (ℚ × ℚ))
    (hz : s.isZoomed = true) (hm : s.zoomedModel = some m)
    (hz2 : s2.isZoomed = false) (hm2 : s2.zoomedModel = none) :
    (mouseCrossed press moves = true →
       (runUI hitAt s (mouseGesture press moves release)).isZoomed = true ∧
       (runUI hitAt s (mouseGesture press moves release)).zoomedModel = some m)
    ∧ (mouseCrossed press moves = false →
       (runUI hitAt s (mouseGesture press moves release)).isZoomed = false ∧
       (runUI hitAt s (mouseGesture press moves release)).zoomedModel = none)
    ∧ (touchCrossed st tmoves = true →
       (runUI hitAt s (touchGesture st tmoves)).isZoomed = true ∧
       (runUI hitAt s (touchGesture st tmoves)).zoomedModel = some m)
    ∧ (touchCrossed st tmoves = false →
       (runUI hitAt s (touchGesture st tmoves)).isZoomed = false ∧
       (runUI hitAt s (touchGesture st tmoves)).zoomedModel = none)
    ∧ (touchCrossed st tmoves = true →
       (runUI hitAt s2 (touchGesture st tmoves)).isZoomed = false ∧
       (runUI hitAt s2 (touchGesture st tmoves)).zoomedModel = none)
    ∧ (touchCrossed st tmoves = false →
       (runUI hitAt s2 (touchGesture st tmoves)).zoomedModel = hitAt st ∧
       (runUI hitAt s2 (touchGesture st tmoves)).isZoomed = (hitAt st).isSome)
    ∧ ((runUI hitAt s2 (mouseGesture press moves release)).zoomedModel = hitAt release ∧
       (runUI hitAt s2 (mouseGesture press moves release)).isZoomed =
         (hitAt release).isSome) := by
  have hsome : s.zoomedModel.isSome = true := by rw [hm]; rfl
  constructor
  · -- mouse while orbiting, crossed: no selection change
    intro hcross
    rw [mouseGesture, runUI_cons, runUI_append]
    have hdown : stepUI hitAt s (UIEvent.mouseDown press.1 press.2) =
        { s with isMouseDown := true, isDragging := false,
                 dragStart := (press.1, press.2) } := rfl
    rw [hdown]
    obtain ⟨a1, a2, a3, a4⟩ := runUI_moves_orbit hitAt moves
      { s with isMouseDown := true, isDragging := false, dragStart := (press.1, press.2) }
      rfl hz hsome rfl
    have hdrag := a4.trans hcross
    have hfin := stepUI_mouseUp_noclick hitAt _ release.1 release.2 hdrag
    rw [runUI]
    simp only [List.foldl_cons, List.foldl_nil]
    refine ⟨?_, ?_⟩
    · rw [hfin.1, a2]
    · rw [hfin.2, a3]; exact hm
  constructor
  · -- mouse while orbiting, not crossed: the release is a click, zooming out
    intro hcross
    rw [mouseGesture, runUI_cons, runUI_append]
    have hdown : stepUI hitAt s (UIEvent.mouseDown press.1 press.2) =
        { s with isMouseDown := true, isDragging := false,
                 dragStart := (press.1, press.2) } := rfl
    rw [hdown]
    obtain ⟨a1, a2, a3, a4⟩ := runUI_moves_orbit hitAt moves
      { s with isMouseDown := true, isDragging := false, dragStart := (press.1, press.2) }
      rfl hz hsome rfl
    have hdrag := a4.trans hcross
    have hfin := stepUI_mouseUp_click_zoomed hitAt _ release.1 release.2 hdrag a1 a2
    rw [runUI]
    simp only [List.foldl_cons, List.foldl_nil]
    exact ⟨hfin.1, hfin.2.1⟩
  constructor
  · -- touch, crossed: no selection change
    intro hcross
    rw [touchGesture, runUI_cons, runUI_append]
    have hstart : stepUI hitAt s (UIEvent.touchStartEv st.1 st.2) =
        { s with isMouseDown := true, isDragging := false,
                 touchStart := (st.1, st.2), mouse := (st.1, st.2) } := rfl
    rw [hstart]
    obtain ⟨a1, a2, a3, a4, a5⟩ := runUI_tmoves hitAt tmoves
      { s with isMouseDown := true, isDragging := false,
               touchStart := (st.1, st.2), mouse := (st.1, st.2) }
    have hdrag := a1.trans hcross
    have hfin := stepUI_touchEnd_noclick hitAt _ hdrag
    rw [runUI]
    simp only [List.foldl_cons, List.foldl_nil]
    refine ⟨?_, ?_⟩
    · rw [hfin.1, a2]; exact hz
    · rw [hfin.2, a3]; exact hm
  constructor
  · -- touch, not crossed: the release clicks, zooming out
    intro hcross
    rw [touchGesture, runUI_cons, runUI_append]
    have hstart : stepUI hitAt s (UIEvent.touchStartEv st.1 st.2) =
        { s with isMouseDown := true, isDragging := false,
                 touchStart := (st.1, st.2), mouse := (st.1, st.2) } := rfl
    rw [hstart]
    obtain ⟨a1, a2, a3, a4, a5⟩ := runUI_tmoves hitAt tmoves
      { s with isMouseDown := true, isDragging := false,
               touchStart := (st.1, st.2), mouse := (st.1, st.2) }
    have hdrag := a1.trans hcross
    have hfin := stepUI_touchEnd_click_zoomed hitAt _ hdrag (a2.trans hz)
    rw [runUI]
    simp only [List.foldl_cons, List.foldl_nil]
    exact hfin
  constructor
  · -- touch while resting, crossed: no click, selection stays empty
    intro hcross
    rw [touchGesture, runUI_cons, runUI_append]
    have hstart : stepUI hitAt s2 (UIEvent.touchStartEv st.1 st.2) =
        { s2 with isMouseDown := true, isDragging := false,
                  touchStart := (st.1, st.2), mouse := (st.1, st.2) } := rfl
    rw [hstart]
    obtain ⟨a1, a2, a3, a4, a5⟩ := runUI_tmoves hitAt tmoves
      { s2 with isMouseDown := true, isDragging := false,
                touchStart := (st.1, st.2), mouse := (st.1, st.2) }
    have hdrag := a1.trans hcross
    have hfin := stepUI_touchEnd_noclick hitAt _ hdrag
    rw [runUI]
    simp only [List.foldl_cons, List.foldl_nil]
    refine ⟨?_, ?_⟩
    · rw [hfin.1, a2]; exact hz2
    · rw [hfin.2, a3]; exact hm2
  constructor
  · -- touch while resting, not crossed: the release hit-tests at the start point
    intro hcross
    rw [touchGesture, runUI_cons, runUI_append]
    have hstart : stepUI hitAt s2 (UIEvent.touchStartEv st.1 st.2) =
        { s2 with isMouseDown := true, isDragging := false,
                  touchStart := (st.1, st.2), mouse := (st.1, st.2) } := rfl
    rw [hstart]
    obtain ⟨a1, a2, a3, a4, a5⟩ := runUI_tmoves hitAt tmoves
      { s2 with isMouseDown := true, isDragging := false,
                touchStart := (st.1, st.2), mouse := (st.1, st.2) }
    have hdrag := a1.trans hcross
    have hfin := stepUI_touchEnd_click_resting hitAt _ hdrag (a2.trans hz2)
      (a3.trans hm2)
    rw [runUI]
    simp only [List.foldl_cons, List.foldl_nil]
    refine ⟨?_, ?_⟩
    · rw [hfin.1, a5]
    · rw [hfin.2, a5]
  · -- mouse while resting: the release always hit-tests
    rw [mouseGesture, runUI_cons, runUI_append]
    have hdown2 : stepUI hitAt s2 (UIEvent.mouseDown press.1 press.2) =
        { s2 with isMouseDown := true, isDragging := false,
                  dragStart := (press.1, press.2) } := rfl
    rw [hdown2]
    obtain ⟨b1, b2, b3, b4⟩ := runUI_moves_resting hitAt moves
      { s2 with isMouseDown := true, isDragging := false,
                dragStart := (press.1, press.2) } hz2
    have hfin := stepUI_mouseUp_click_resting hitAt _ release.1 release.2 b3 b4 b1
      (b2.trans hm2)
    rw [runUI]
    simp only [List.foldl_cons, List.foldl_nil]
    refine ⟨?_, ?_⟩
    · rw [hfin.1]
    · rw [hfin.2]

theorem c5_drag_amended_witness :
    (mouseCrossed (0, 0) [(50, 0)] = true →
       (runUI noHit sampleZoomed (mouseGesture (0, 0) [(50, 0)] (9, 9))).isZoomed = true ∧
       (runUI noHit sampleZoomed (mouseGesture (0, 0) [(50, 0)] (9, 9))).zoomedModel =
         some 0)
    ∧ (mouseCrossed (0, 0) [(50, 0)] = false →
       (runUI noHit sampleZoomed (mouseGesture (0, 0) [(50, 0)] (9, 9))).isZoomed = false ∧
       (runUI noHit sampleZoomed (mouseGesture (0, 0) [(50, 0)] (9, 9))).zoomedModel =
         none)
    ∧ (touchCrossed (0, 0) [(1, 1)] = true →
       (runUI noHit sampleZoomed (touchGesture (0, 0) [(1, 1)])).isZoomed = true ∧
       (runUI noHit sampleZoomed (touchGesture (0, 0) [(1, 1)])).zoomedModel = some 0)
    ∧ (touchCrossed (0, 0) [(1, 1)] = false →
       (runUI noHit sampleZoomed (touchGesture (0, 0) [(1, 1)])).isZoomed = false ∧
       (runUI noHit sampleZoomed (touchGesture (0, 0) [(1, 1)])).zoomedModel = none)
    ∧ (touchCrossed (0, 0) [(1, 1)] = true →
       (runUI noHit initUI (touchGesture (0, 0) [(1, 1)])).isZoomed = false ∧
       (runUI noHit initUI (touchGesture (0, 0) [(1, 1)])).zoomedModel = none)
    ∧ (touchCrossed (0, 0) [(1, 1)] = false →
       (runUI noHit initUI (touchGesture (0, 0) [(1, 1)])).zoomedModel = noHit (0, 0) ∧
       (runUI noHit initUI (touchGesture (0, 0) [(1, 1)])).isZoomed =
         (noHit (0, 0)).isSome)
    ∧ ((runUI noHit initUI (mouseGesture (0, 0) [(50, 0)] (9, 9))).zoomedModel =
         noHit (9, 9) ∧
       (runUI noHit initUI (mouseGesture (0, 0) [(50, 0)] (9, 9))).isZoomed =
         (noHit (9, 9)).isSome) :=
  c5_drag_amended noHit sampleZoomed initUI 0 (0, 0) (9, 9) (0, 0) [(50, 0)] [(1, 1)]
    rfl rfl rfl rfl

/-! ### C10: the zoom flag and the zoomed model reference stay in sync -/

theorem singleClick_zoom_inv (hitAt : ℚ × ℚ → Option Nat) (s : UIState)
    (h : s.isZoomed = s.zoomedModel.isSome) :
    (singleClick hitAt s).isZoomed = (singleClick hitAt s).zoomedModel.isSome := by
  rw [singleClick]
  by_cases hz : s.isZoomed = true
  · simp [hz, zoomOutU, performLayoutU]
  · have hz2 : s.isZoomed = false := by
      cases hzz : s.isZoomed
      · rfl
      · exact absurd hzz hz
    cases hh : hitAt s.mouse with
    | none =>
      simp only [hz2, Bool.false_eq_true, if_false, hh]
      rw [← hz2]
      exact h
    | some k => simp [hz2, hh, zoomInU]

theorem stepUI_zoom_inv (hitAt : ℚ × ℚ → Option Nat) (s : UIState) (e : UIEvent)
    (h : s.isZoomed = s.zoomedModel.isSome) :
    (stepUI hitAt s e).isZoomed = (stepUI hitAt s e).zoomedModel.isSome := by
  cases e with
  | mouseDown x y => exact h
  | mouseMove x y =>
    obtain ⟨h1, h2, _, _⟩ := stepUI_mouseMove_zoom hitAt s x y
    rw [h1, h2]; exact h
  | mouseUp x y =>
    simp only [stepUI]
    by_cases hc : (!s.isDragging && s.isMouseDown) = true
    · rw [if_pos hc]
      exact singleClick_zoom_inv hitAt { s with isMouseDown := false, mouse := (x, y) } h
    · rw [if_neg hc]
      exact h
  | touchStartEv x y => exact h
  | touchMoveEv x y =>
    obtain ⟨_, _, h1, h2, _, _⟩ := stepUI_touchMove hitAt s x y
    rw [h1, h2]; exact h
  | touchEndEv =>
    simp only [stepUI]
    by_cases hc : (!s.isDragging) = true
    · rw [if_pos hc]
      exact singleClick_zoom_inv hitAt { s with isMouseDown := false } h
    · rw [if_neg hc]
      exact h
  | wheelEv d =>
    rw [stepUI]
    split
    · exact h
    · exact h
  | clearSelection =>
    rw [stepUI]
    split
    · simp [zoomOutU, performLayoutU]
    · exact h
  | setSearch t => exact h

theorem runUI_zoom_inv (hitAt : ℚ × ℚ → Option Nat) :
    ∀ (es : List UIEvent) (s : UIState),
      s.isZoomed = s.zoomedModel.isSome →
      (runUI hitAt s es).isZoomed = (runUI hitAt s es).zoomedModel.isSome := by
  intro es
  induction es with
  | nil => intro s h; exact h
  | cons e es ih =>
    intro s h
    rw [runUI_cons]
    exact ih _ (stepUI_zoom_inv hitAt s e h)

/-- C10: in every state reachable from the initial scene state, the zoom flag
is true exactly when the zoomed-model reference is non-null: zoomIn sets both
together, zoomOut and both external clearing effects clear both together, so
the illegal state of orbiting with no selected object is unreachable. -/
theorem c10_zoom_invariant (hitAt : ℚ × ℚ → Option Nat) (es : List UIEvent) :
    ((runUI hitAt initUI es).isZoomed = true ↔
      (runUI hitAt initUI es).zoomedModel ≠ none) := by
  have h := runUI_zoom_inv hitAt es initUI rfl
  rw [h]
  simp [Option.isSome_iff_ne_none]

end Portfolio
